import Mathlib

/-!
Shallow embedding of the classification-and-normalization pipeline of
`refiner/refine.py` (Netflix CSV refiner): shape detection from column
names, column renaming, duration and monetary coercion, account-id
derivation via SHA-256, and the per-file orchestration loop.

Modelling conventions:
* A pandas `DataFrame` is modelled column-oriented as a list of
  `(column name, column values)` pairs, in column order.
* CSV cell values are modelled as `Value.na` (pandas NaN for an absent
  cell) or `Value.str` (text); the numeric variants `Value.int` /
  `Value.rat` arise only as outputs of the pipeline's own coercions.
* Python `str.lower` / `str.strip` are modelled by `pyLower` /
  `pyStrip` (ASCII scope, which covers every name the pipeline
  compares).
* Python `int(...)` and the numeric parser behind
  `pd.to_numeric(errors='coerce')` are modelled by `pyInt?` / `pyFloat?`
  below; decimals are represented exactly as rationals.  The non-finite
  spellings accepted by the pandas parser ("inf", "nan", ...) are
  modelled as parse failures: "nan" already coerces to 0.0 in the source
  (NaN then `fillna(0.0)`), so only infinities diverge, and no claim
  touches them.
* `pandas.str.replace` with a plain string pattern is literal
  substring replacement (pandas 2 default `regex=False`).
-/

namespace Refiner

/-- A loosely-typed scalar cell. `na` is pandas `NaN` (missing). -/
inductive Value where
  | na : Value
  | str (s : String) : Value
  | int (n : Int) : Value
  | rat (q : Rat) : Value
deriving DecidableEq, Repr

/-- Python `str(v)` as applied by `.astype(str)`: NaN renders as "nan".
The pipeline only ever applies this to `na`/`str` cells (CSV text). -/
def asStr : Value → String
  | Value.na => "nan"
  | Value.str s => s
  | Value.int n => toString n
  | Value.rat q => toString q

/-! ### Python-style string primitives

Structural reimplementations (over `List Char`) of the string
operations the pipeline uses, so that every definition evaluates by
kernel reduction.  ASCII scope throughout, which covers every string
the pipeline compares. -/

/-- Whitespace stripped by Python `str.strip()` (ASCII scope). -/
def pyIsSpace (c : Char) : Bool :=
  c = ' ' || c = '\t' || c = '\n' || c = '\r' || c = '\x0b' || c = '\x0c'

/-- Strip leading and trailing whitespace from a character list. -/
def trimChars (cs : List Char) : List Char :=
  ((cs.dropWhile pyIsSpace).reverse.dropWhile pyIsSpace).reverse

/-- Model of Python `str.strip()`. -/
def pyStrip (s : String) : String :=
  String.mk (trimChars s.data)

/-- Model of Python `str.lower()` (ASCII scope). -/
def pyLower (s : String) : String :=
  String.mk (s.data.map Char.toLower)

/-! ### Python-style numeric literal parsing -/

/-- Digits of a Python integer literal after the first: ASCII digits with
single underscores allowed between digits (`int("1_0") = 10`). -/
def pyDigitsGo (acc : Nat) : List Char → Option Nat
  | [] => some acc
  | '_' :: c :: rest =>
      if c.isDigit then pyDigitsGo (acc * 10 + (c.toNat - 48)) rest else none
  | c :: rest =>
      if c.isDigit then pyDigitsGo (acc * 10 + (c.toNat - 48)) rest else none

/-- Nonempty ASCII digit run (with interior underscores), as a `Nat`. -/
def pyDigits? : List Char → Option Nat
  | [] => none
  | c :: rest => if c.isDigit then pyDigitsGo (c.toNat - 48) rest else none

/-- Python `int(s)`: surrounding whitespace stripped, optional sign, then a
nonempty digit run; anything else raises (here: `none`). -/
def pyInt? (s : String) : Option Int :=
  match trimChars s.data with
  | '+' :: rest => (pyDigits? rest).map (fun n => (n : Int))
  | '-' :: rest => (pyDigits? rest).map (fun n => -(n : Int))
  | cs => (pyDigits? cs).map (fun n => (n : Int))

/-- Split a character list on a separator character (Python
`str.split(sep)` semantics: `[] ↦ [[]]`, separators delimit groups). -/
def splitOnChar (sep : Char) : List Char → List (List Char)
  | [] => [[]]
  | c :: rest =>
      let r := splitOnChar sep rest
      if c = sep then [] :: r
      else
        match r with
        | [] => [[c]]
        | g :: gs => (c :: g) :: gs

/-- Model of Python `str.split(sep)` for a one-character separator. -/
def pySplit (sep : Char) (s : String) : List String :=
  (splitOnChar sep s.data).map String.mk

/-- Value of a nonempty ASCII digit run (no underscores). -/
def natOfDigits (cs : List Char) : Nat :=
  cs.foldl (fun a c => a * 10 + (c.toNat - 48)) 0

/-- Mantissa of a decimal literal: `digits`, `digits.digits`, `digits.` or
`.digits`, as an exact rational (integer-and-fraction digits over a
power of ten). -/
def mantissaVal? (cs : List Char) : Option Rat :=
  match splitOnChar '.' cs with
  | [i] =>
      if !i.isEmpty && i.all Char.isDigit then some (mkRat (natOfDigits i) 1)
      else none
  | [i, f] =>
      if (!i.isEmpty || !f.isEmpty) && i.all Char.isDigit && f.all Char.isDigit then
        some (mkRat (natOfDigits (i ++ f)) (10 ^ f.length))
      else none
  | _ => none

/-- Exponent of a decimal literal: optional sign then nonempty digits. -/
def expVal? : List Char → Option Int
  | '+' :: rest =>
      if !rest.isEmpty && rest.all Char.isDigit then some ((natOfDigits rest : Nat) : Int)
      else none
  | '-' :: rest =>
      if !rest.isEmpty && rest.all Char.isDigit then some (-((natOfDigits rest : Nat) : Int))
      else none
  | rest =>
      if !rest.isEmpty && rest.all Char.isDigit then some ((natOfDigits rest : Nat) : Int)
      else none

/-- Scale a rational by a signed power of ten. -/
def scalePow10 (q : Rat) (e : Int) : Rat :=
  if 0 ≤ e then mkRat (q.num * (10 : Int) ^ e.toNat) q.den
  else mkRat q.num (q.den * 10 ^ (-e).toNat)

/-- Unsigned decimal literal: mantissa with optional `e`-exponent
(characters already lower-cased). -/
def pyFloatUnsigned? (cs : List Char) : Option Rat :=
  match splitOnChar 'e' cs with
  | [m] => mantissaVal? m
  | [m, ex] =>
      match mantissaVal? m, expVal? ex with
      | some q, some e => some (scalePow10 q e)
      | _, _ => none
  | _ => none

/-- The string-to-number parser behind `pd.to_numeric(errors='coerce')`:
surrounding whitespace stripped, optional sign, decimal literal with
optional exponent.  `none` is coerce-to-NaN. -/
def pyFloat? (s : String) : Option Rat :=
  match (trimChars s.data).map Char.toLower with
  | '+' :: rest => pyFloatUnsigned? rest
  | '-' :: rest => (pyFloatUnsigned? rest).map Neg.neg
  | cs => pyFloatUnsigned? cs

/-! ### DataFrame model -/

/-- A pandas DataFrame, column-oriented: ordered `(name, values)` pairs. -/
abbrev DataFrame := List (String × List Value)

/-- Model of `df.columns`, in order. -/
def columnsOf (df : DataFrame) : List String := df.map Prod.fst

/-- Number of rows (all columns of a well-formed frame have this length). -/
def nRows (df : DataFrame) : Nat :=
  match df with
  | [] => 0
  | nv :: _ => nv.2.length

/-- Indexing `df[name]`: values of the first column with that name ( `[]` if absent). -/
def getCol (df : DataFrame) (name : String) : List Value :=
  match df.find? (fun nv => nv.1 == name) with
  | some nv => nv.2
  | none => []

/-- Assignment `df[name] = vals`: replace the values of every column with that name,
or append a new column at the end if no column has it. -/
def setColumnVals (df : DataFrame) (name : String) (vals : List Value) : DataFrame :=
  if df.any (fun nv => nv.1 == name) then
    df.map (fun nv => if nv.1 = name then (name, vals) else nv)
  else
    df ++ [(name, vals)]

/-- Assignment `df[name] = scalar`: broadcast a scalar to every row. -/
def setColumn (df : DataFrame) (name : String) (v : Value) : DataFrame :=
  setColumnVals df name (List.replicate (nRows df) v)

/-- One column rename: mapped names are replaced, unmapped names kept
(`df.rename` matches labels exactly and leaves the rest unchanged). -/
def applyMapping (m : List (String × String)) (c : String) : String :=
  (m.lookup c).getD c

/-- Model of `df.rename(columns=m)`. -/
def renameCols (m : List (String × String)) (df : DataFrame) : DataFrame :=
  df.map (fun nv => (applyMapping m nv.1, nv.2))

/-! ### refine.py: shape detection -/

/-- Result of `_detect_file_type`. -/
inductive ShapeLabel where
  | viewing : ShapeLabel
  | billing : ShapeLabel
  | unknown : ShapeLabel
deriving DecidableEq, Repr

/-- Real Netflix viewing activity indicators (6 names). -/
def viewingIndicators : Finset String :=
  {"start time", "duration", "title", "profile name", "device type", "bookmark"}

/-- Real Netflix billing history indicators (5 names). -/
def billingIndicators : Finset String :=
  {"transaction date", "gross sale amt", "currency", "payment type", "pmt status"}

/-- Model of the set comprehension over lower-cased, stripped column names. -/
def normColumns (cols : List String) : Finset String :=
  (cols.map (fun c => pyStrip (pyLower c))).toFinset

/-- Viewing score: size of the intersection with the viewing indicators. -/
def viewingScore (cols : List String) : Nat :=
  (normColumns cols ∩ viewingIndicators).card

/-- Billing score: size of the intersection with the billing indicators. -/
def billingScore (cols : List String) : Nat :=
  (normColumns cols ∩ billingIndicators).card

/-- Decision rule of `_detect_file_type` on an already-normalized column
set: strictly higher score wins, any tie is unknown. -/
def detectFromColumnsSet (c : Finset String) : ShapeLabel :=
  if (c ∩ viewingIndicators).card > (c ∩ billingIndicators).card then ShapeLabel.viewing
  else if (c ∩ billingIndicators).card > (c ∩ viewingIndicators).card then ShapeLabel.billing
  else ShapeLabel.unknown

/-- Model of `_detect_file_type(df)`, as a function of `df.columns`. -/
def detect_file_type (cols : List String) : ShapeLabel :=
  detectFromColumnsSet (normColumns cols)

/-! ### refine.py: field coercions -/

/-- Part-count dispatch of `_parse_duration`: NaN or `""` give 0; otherwise split on `':'` and
interpret 3 integer parts as HH:MM:SS, 2 as MM:SS; every other part
count, or any part `int(...)` rejects, falls to the `except` arm, 0. -/
def durationFromParts : List String → Int
  | [p1, p2, p3] =>
      match pyInt? p1, pyInt? p2, pyInt? p3 with
      | some h, some m, some sec => h * 3600 + m * 60 + sec
      | _, _, _ => 0
  | [p1, p2] =>
      match pyInt? p1, pyInt? p2 with
      | some m, some sec => m * 60 + sec
      | _, _ => 0
  | _ => 0

/-- Model of `_parse_duration`: the `pd.isna` / `== ""` guard, then the
part-count dispatch above. -/
def parse_duration (v : Value) : Int :=
  if v = Value.na ∨ v = Value.str "" then 0
  else durationFromParts (pySplit ':' (asStr v))

/-- Model of `.str.replace('$', '').str.replace(',', '')` (literal replacement). -/
def moneyStrip (s : String) : String :=
  String.mk ((s.data.filter (fun c => c ≠ '$')).filter (fun c => c ≠ ','))

/-- Model of `pd.to_numeric(errors='coerce').fillna(0.0)` on one cell. -/
def toNumericOrZero (s : String) : Rat :=
  (pyFloat? s).getD 0

/-- Monetary coercion of one cell: `astype(str)`, strip `'$'` and `','`,
parse as a decimal, unparseable becomes 0.0. -/
def coerceMoney (v : Value) : Value :=
  Value.rat (toNumericOrZero (moneyStrip (asStr v)))

/-! ### refine.py: field normalizers -/

/-- Column mapping of `_process_viewing_activity` (keys are the
lower-case spellings hard-coded in the source). -/
def viewingMapping : List (String × String) :=
  [("start time", "start_time"),
   ("duration", "duration"),
   ("title", "title"),
   ("profile name", "profile_name"),
   ("device type", "device_type"),
   ("country", "country"),
   ("bookmark", "bookmark"),
   ("latest bookmark", "latest_bookmark"),
   ("supplemental video type", "supplemental_video_type"),
   ("attributes", "attributes")]

/-- Column mapping of `_process_billing_history`. -/
def billingMapping : List (String × String) :=
  [("transaction date", "transaction_date"),
   ("country", "country"),
   ("mop last 4", "mop_last_4"),
   ("final invoice result", "final_invoice_result"),
   ("mop pmt processor desc", "mop_pmt_processor_desc"),
   ("pmt txn type", "pmt_txn_type"),
   ("description", "description"),
   ("gross sale amt", "gross_sale_amt"),
   ("pmt status", "pmt_status"),
   ("payment type", "payment_type"),
   ("tax amt", "tax_amt"),
   ("service period start date", "service_period_start_date"),
   ("item price amt", "item_price_amt"),
   ("mop creation date", "mop_creation_date"),
   ("currency", "currency"),
   ("next billing date", "next_billing_date"),
   ("service period end date", "service_period_end_date")]

/-- The three monetary columns converted by `_process_billing_history`. -/
def moneyCols : List String := ["gross_sale_amt", "tax_amt", "item_price_amt"]

/-- Model of `_process_viewing_activity(df, account_id)`. -/
def process_viewing_activity (df : DataFrame) (account_id : String) : DataFrame :=
  let df1 := setColumn df "account_id" (Value.str account_id)
  let df2 := renameCols viewingMapping df1
  if "duration" ∈ columnsOf df2 then
    setColumnVals df2 "duration_sec"
      ((getCol df2 "duration").map (fun v => Value.int (parse_duration v)))
  else df2

/-- Numeric-conversion loop of `_process_billing_history`: each of the
three monetary columns present is coerced cell-wise. -/
def convertMoneyColumns (df : DataFrame) : DataFrame :=
  df.map (fun nv => if nv.1 ∈ moneyCols then (nv.1, nv.2.map coerceMoney) else nv)

/-- Model of `_process_billing_history(df, account_id)`. -/
def process_billing_history (df : DataFrame) (account_id : String) : DataFrame :=
  let df1 := setColumn df "account_id" (Value.str account_id)
  let df2 := renameCols billingMapping df1
  convertMoneyColumns df2

/-! ### SHA-256 (FIPS 180-4), over byte lists, words as `Nat` mod 2^32 -/

/-- The word modulus 2^32. -/
def wordMod : Nat := 4294967296

/-- Rotate a 32-bit word right by `n` (word given and returned below 2^32). -/
def rotr (n w : Nat) : Nat :=
  (w >>> n) ||| ((w <<< (32 - n)) % wordMod)

/-- Bitwise complement within 32 bits. -/
def bnot32 (w : Nat) : Nat := w ^^^ (wordMod - 1)

/-- SHA-256 `Ch(x,y,z)`. -/
def shaCh (x y z : Nat) : Nat := (x &&& y) ^^^ (bnot32 x &&& z)

/-- SHA-256 `Maj(x,y,z)`. -/
def shaMaj (x y z : Nat) : Nat := (x &&& y) ^^^ (x &&& z) ^^^ (y &&& z)

/-- SHA-256 `Σ0`. -/
def bigSigma0 (x : Nat) : Nat := rotr 2 x ^^^ rotr 13 x ^^^ rotr 22 x

/-- SHA-256 `Σ1`. -/
def bigSigma1 (x : Nat) : Nat := rotr 6 x ^^^ rotr 11 x ^^^ rotr 25 x

/-- SHA-256 `σ0`. -/
def smallSigma0 (x : Nat) : Nat := rotr 7 x ^^^ rotr 18 x ^^^ (x >>> 3)

/-- SHA-256 `σ1`. -/
def smallSigma1 (x : Nat) : Nat := rotr 17 x ^^^ rotr 19 x ^^^ (x >>> 10)

/-- The 64 SHA-256 round constants. -/
def K256 : List Nat :=
  [1116352408, 1899447441, 3049323471, 3921009573,
   961987163, 1508970993, 2453635748, 2870763221,
   3624381080, 310598401, 607225278, 1426881987,
   1925078388, 2162078206, 2614888103, 3248222580,
   3835390401, 4022224774, 264347078, 604807628,
   770255983, 1249150122, 1555081692, 1996064986,
   2554220882, 2821834349, 2952996808, 3210313671,
   3336571891, 3584528711, 113926993, 338241895,
   666307205, 773529912, 1294757372, 1396182291,
   1695183700, 1986661051, 2177026350, 2456956037,
   2730485921, 2820302411, 3259730800, 3345764771,
   3516065817, 3600352804, 4094571909, 275423344,
   430227734, 506948616, 659060556, 883997877,
   958139571, 1322822218, 1537002063, 1747873779,
   1955562222, 2024104815, 2227730452, 2361852424,
   2428436474, 2756734187, 3204031479, 3329325298]

/-- The eight working variables of the compression function. -/
structure SHAState where
  va : Nat
  vb : Nat
  vc : Nat
  vd : Nat
  ve : Nat
  vf : Nat
  vg : Nat
  vh : Nat
deriving DecidableEq, Repr

/-- The SHA-256 initial hash value. -/
def H0 : SHAState :=
  ⟨1779033703, 3144134277, 1013904242, 2773480762, 1359893119, 2600822924, 528734635, 1541459225⟩

/-- One round of the compression function. -/
def compressRound (st : SHAState) (w k : Nat) : SHAState :=
  let t1 := (st.vh + bigSigma1 st.ve + shaCh st.ve st.vf st.vg + k + w) % wordMod
  let t2 := (bigSigma0 st.va + shaMaj st.va st.vb st.vc) % wordMod
  ⟨(t1 + t2) % wordMod, st.va, st.vb, st.vc, (st.vd + t1) % wordMod, st.ve, st.vf, st.vg⟩

/-- Extend the schedule by one word. -/
def scheduleStep (ws : List Nat) : List Nat :=
  ws ++ [(smallSigma1 (ws.getD (ws.length - 2) 0) + ws.getD (ws.length - 7) 0 +
          smallSigma0 (ws.getD (ws.length - 15) 0) + ws.getD (ws.length - 16) 0) % wordMod]

/-- Message schedule: the 16 block words extended to 64. -/
def schedule (block : List Nat) : List Nat :=
  (List.range 48).foldl (fun acc _ => scheduleStep acc) block

/-- Pointwise mod-2^32 sum of two states. -/
def addStates (x y : SHAState) : SHAState :=
  ⟨(x.va + y.va) % wordMod, (x.vb + y.vb) % wordMod, (x.vc + y.vc) % wordMod,
   (x.vd + y.vd) % wordMod, (x.ve + y.ve) % wordMod, (x.vf + y.vf) % wordMod,
   (x.vg + y.vg) % wordMod, (x.vh + y.vh) % wordMod⟩

/-- Process one 16-word block. -/
def processBlock (H : SHAState) (block : List Nat) : SHAState :=
  addStates H (((schedule block).zip K256).foldl (fun st wk => compressRound st wk.1 wk.2) H)

/-- Big-endian bytes of a number, fixed width. -/
def toBytesBE (k n : Nat) : List Nat :=
  (List.range k).map (fun i => (n >>> (8 * (k - 1 - i))) % 256)

/-- SHA-256 padding: `0x80`, zeros to 56 mod 64, 8-byte bit length. -/
def sha256pad (msg : List Nat) : List Nat :=
  msg ++ [0x80] ++ List.replicate ((64 + 55 - (msg.length % 64)) % 64) 0
      ++ toBytesBE 8 (8 * msg.length)

/-- Big-endian 4-byte groups to 32-bit words. -/
def bytesToWords : List Nat → List Nat
  | b0 :: b1 :: b2 :: b3 :: rest => (((b0 * 256 + b1) * 256 + b2) * 256 + b3) :: bytesToWords rest
  | _ => []

/-- Split a word list into 16-word blocks (fuel-based recursion so the
kernel can evaluate it; the fuel `ws.length` always suffices). -/
def chunk16Fuel : Nat → List Nat → List (List Nat)
  | _, [] => []
  | 0, ws => [ws.take 16]
  | fuel + 1, ws => ws.take 16 :: chunk16Fuel fuel (ws.drop 16)

/-- Split a word list into 16-word blocks. -/
def chunk16 (ws : List Nat) : List (List Nat) :=
  chunk16Fuel ws.length ws

/-- SHA-256 of a byte list, as the final state. -/
def sha256 (msg : List Nat) : SHAState :=
  (chunk16 (bytesToWords (sha256pad msg))).foldl processBlock H0

/-- Lower-case hex digit of a nibble. -/
def hexChar (n : Nat) : Char :=
  if n < 10 then Char.ofNat (48 + n) else Char.ofNat (87 + n)

/-- Eight lower-case hex digits of a 32-bit word, big-endian. -/
def wordHex8 (w : Nat) : List Char :=
  (List.range 8).map (fun i => hexChar ((w >>> (4 * (7 - i))) % 16))

/-- Model of `hashlib.sha256(...).hexdigest()` as a character list (64 chars). -/
def sha256HexChars (msg : List Nat) : List Char :=
  wordHex8 (sha256 msg).va ++ wordHex8 (sha256 msg).vb ++ wordHex8 (sha256 msg).vc ++
  wordHex8 (sha256 msg).vd ++ wordHex8 (sha256 msg).ve ++ wordHex8 (sha256 msg).vf ++
  wordHex8 (sha256 msg).vg ++ wordHex8 (sha256 msg).vh

/-- Model of `hashlib.sha256(...).hexdigest()`. -/
def sha256Hex (msg : List Nat) : String := String.mk (sha256HexChars msg)

/-- UTF-8 encoding of one character (1–4 bytes). -/
def utf8Char (c : Char) : List Nat :=
  let n := c.toNat
  if n < 0x80 then [n]
  else if n < 0x800 then [0xC0 ||| (n >>> 6), 0x80 ||| (n &&& 0x3F)]
  else if n < 0x10000 then
    [0xE0 ||| (n >>> 12), 0x80 ||| ((n >>> 6) &&& 0x3F), 0x80 ||| (n &&& 0x3F)]
  else
    [0xF0 ||| (n >>> 18), 0x80 ||| ((n >>> 12) &&& 0x3F),
     0x80 ||| ((n >>> 6) &&& 0x3F), 0x80 ||| (n &&& 0x3F)]

/-- Model of `wallet_address.encode()`: the UTF-8 bytes of the string. -/
def utf8Bytes (s : String) : List Nat :=
  (s.data.map utf8Char).flatten

/-- Model of `_hash_wallet_address`: first 16 hex chars of the SHA-256 digest of
the UTF-8 bytes. -/
def hash_wallet_address (wallet_address : String) : String :=
  String.mk ((sha256HexChars (utf8Bytes wallet_address)).take 16)

/-! ### refine.py: orchestration (`transform`) -/

/-- Model of `os.getenv('WALLET_ADDRESS')` plus the falsy-value fallback
(`if not wallet_address: wallet_address = "unknown"`). -/
def resolveWallet (wopt : Option String) : String :=
  match wopt with
  | none => "unknown"
  | some s => if s = "" then "unknown" else s

/-- Model of `os.path.splitext(name)[1]`: the extension including its dot; leading
dots of the name do not start an extension. -/
def extSplit (name : String) : String :=
  let cs := name.data
  let rest := cs.drop ((cs.takeWhile (fun c => c = '.')).length)
  if rest.any (fun c => c = '.') then
    String.mk ('.' :: (rest.reverse.takeWhile (fun c => c ≠ '.')).reverse)
  else ""

/-- Model of the csv-extension test on a file name. -/
def hasCsvExt (name : String) : Bool :=
  pyLower (extSplit name) == ".csv"

/-- The classification/normalization loop of `transform`: the account id
is derived once from the wallet secret before any file is processed, and
each qualifying CSV is classified and appended to one of the two
relations (unknown shapes are skipped).  Inputs are modelled as already
parsed `(filename, RawTable)` pairs, the result as the per-file appended
batches in processing order. -/
def transform (wopt : Option String) (files : List (String × DataFrame)) :
    List (String × DataFrame) :=
  let account_id := hash_wallet_address (resolveWallet wopt)
  files.filterMap (fun nd =>
    if hasCsvExt nd.1 then
      match detect_file_type (columnsOf nd.2) with
      | ShapeLabel.viewing => some ("viewing_activity", process_viewing_activity nd.2 account_id)
      | ShapeLabel.billing => some ("billing_history", process_billing_history nd.2 account_id)
      | ShapeLabel.unknown => none
    else none)

/-! ## Helper lemmas -/

theorem lookup_mem {m : List (String × String)} {k v : String}
    (h : m.lookup k = some v) : (k, v) ∈ m := by
  induction m with
  | nil => simp [List.lookup] at h
  | cons p t ih =>
    rcases p with ⟨a, b⟩
    simp only [List.lookup] at h
    cases hk : (k == a) with
    | true =>
      rw [hk] at h
      simp at h
      subst h
      have hk' : k = a := beq_iff_eq.mp hk
      subst hk'
      exact List.mem_cons_self _ _
    | false =>
      rw [hk] at h
      exact List.mem_cons_of_mem _ (ih h)

theorem applyMapping_eq_self_of_not_value {m : List (String × String)} {c t : String}
    (hv : ∀ p ∈ m, p.2 ≠ t) (h : applyMapping m c = t) : c = t := by
  unfold applyMapping at h
  cases hl : m.lookup c with
  | none => rw [hl] at h; simpa using h
  | some v =>
    rw [hl] at h
    simp at h
    exact absurd h (hv _ (lookup_mem hl))

theorem columnsOf_setColumnVals (df : DataFrame) (n : String) (vals : List Value) :
    columnsOf (setColumnVals df n vals) =
      if df.any (fun nv => nv.1 == n) then columnsOf df else columnsOf df ++ [n] := by
  unfold setColumnVals columnsOf
  split_ifs with h
  · rw [List.map_map]
    apply List.map_congr_left
    intro nv _
    by_cases hnv : nv.1 = n <;> simp [hnv]
  · simp

theorem mem_columnsOf_setColumnVals_self (df : DataFrame) (n : String) (vals : List Value) :
    n ∈ columnsOf (setColumnVals df n vals) := by
  rw [columnsOf_setColumnVals]
  split_ifs with h
  · rcases List.any_eq_true.mp h with ⟨nv, hmem, hbeq⟩
    exact (beq_iff_eq.mp hbeq) ▸ List.mem_map_of_mem Prod.fst hmem
  · simp

theorem mem_columnsOf_setColumnVals_of_mem {df : DataFrame} {c : String}
    (n : String) (vals : List Value) (h : c ∈ columnsOf df) :
    c ∈ columnsOf (setColumnVals df n vals) := by
  rw [columnsOf_setColumnVals]
  split_ifs
  · exact h
  · exact List.mem_append_left _ h

theorem mem_columnsOf_setColumnVals_cases {df : DataFrame} {n c : String} {vals : List Value}
    (h : c ∈ columnsOf (setColumnVals df n vals)) : c ∈ columnsOf df ∨ c = n := by
  rw [columnsOf_setColumnVals] at h
  split_ifs at h
  · exact Or.inl h
  · rcases List.mem_append.mp h with h1 | h1
    · exact Or.inl h1
    · exact Or.inr (List.mem_singleton.mp h1)

theorem columnsOf_renameCols (m : List (String × String)) (df : DataFrame) :
    columnsOf (renameCols m df) = (columnsOf df).map (applyMapping m) := by
  simp [columnsOf, renameCols, List.map_map]

theorem columnsOf_convertMoneyColumns (df : DataFrame) :
    columnsOf (convertMoneyColumns df) = columnsOf df := by
  unfold convertMoneyColumns columnsOf
  rw [List.map_map]
  apply List.map_congr_left
  intro nv _
  by_cases hnv : nv.1 ∈ moneyCols <;> simp [hnv]

/-! ## Claim theorems -/

/-- C1: the shape classifier returns ViewingActivity exactly when the
intersection of the lower-cased, trimmed column-name set with the 6
viewing indicators is strictly larger than its intersection with the 5
billing indicators, BillingHistory when the billing intersection is
strictly larger, and Unknown on any tie (including 0-0); in particular
the six viewing indicator columns classify as ViewingActivity and
`foo, bar` classify as Unknown. -/
theorem C1_shape_classifier (cols : List String) :
    (detect_file_type cols = ShapeLabel.viewing ↔ billingScore cols < viewingScore cols)
  ∧ (detect_file_type cols = ShapeLabel.billing ↔ viewingScore cols < billingScore cols)
  ∧ (detect_file_type cols = ShapeLabel.unknown ↔ viewingScore cols = billingScore cols)
  ∧ detect_file_type
      ["start time", "duration", "title", "profile name", "device type", "bookmark"]
      = ShapeLabel.viewing
  ∧ detect_file_type ["foo", "bar"] = ShapeLabel.unknown := by
  refine ⟨?_, ?_, ?_, by decide, by decide⟩ <;>
  · unfold detect_file_type detectFromColumnsSet viewingScore billingScore
    split_ifs with h1 h2 <;> simp <;> omega

/-- C1 witness: the classifier theorem applied at a one-column table. -/
theorem C1_shape_classifier_witness :
    detect_file_type ["start time", "title"] = ShapeLabel.viewing :=
  (C1_shape_classifier ["start time", "title"]).1.mpr (by decide)

/-- C2: duration coercion splits on ':', yields h*3600+m*60+s for exactly
3 integer parts, m*60+s for exactly 2 integer parts, and 0 for any other
part count, empty or missing value, or non-integer parts; concretely
"1:23:45" gives 5025, "23:45" gives 1425, "", "bad" and a missing value
give 0. -/
theorem C2_duration_coercion :
    (∀ (s p1 p2 p3 : String) (h m sec : Int),
        pySplit ':' s = [p1, p2, p3] →
        pyInt? p1 = some h → pyInt? p2 = some m → pyInt? p3 = some sec →
        parse_duration (Value.str s) = h * 3600 + m * 60 + sec)
  ∧ (∀ (s p1 p2 : String) (m sec : Int),
        pySplit ':' s = [p1, p2] →
        pyInt? p1 = some m → pyInt? p2 = some sec →
        parse_duration (Value.str s) = m * 60 + sec)
  ∧ (∀ s : String, (pySplit ':' s).length ≠ 3 → (pySplit ':' s).length ≠ 2 →
        parse_duration (Value.str s) = 0)
  ∧ (∀ s p1 p2 p3 : String,
        pySplit ':' s = [p1, p2, p3] →
        (pyInt? p1 = none ∨ pyInt? p2 = none ∨ pyInt? p3 = none) →
        parse_duration (Value.str s) = 0)
  ∧ (∀ s p1 p2 : String,
        pySplit ':' s = [p1, p2] →
        (pyInt? p1 = none ∨ pyInt? p2 = none) →
        parse_duration (Value.str s) = 0)
  ∧ parse_duration (Value.str "1:23:45") = 5025
  ∧ parse_duration (Value.str "23:45") = 1425
  ∧ parse_duration (Value.str "") = 0
  ∧ parse_duration (Value.str "bad") = 0
  ∧ parse_duration Value.na = 0 := by
  have hempty : pySplit ':' "" = [""] := by decide
  refine ⟨?_, ?_, ?_, ?_, ?_, by decide, by decide, by decide, by decide, by decide⟩
  · intro s p1 p2 p3 h m sec hsplit h1 h2 h3
    have hs : s ≠ "" := by
      intro he; rw [he, hempty] at hsplit; simp at hsplit
    simp only [parse_duration, asStr]
    rw [if_neg (by simp [hs]), hsplit]
    simp [durationFromParts, h1, h2, h3]
  · intro s p1 p2 m sec hsplit h1 h2
    have hs : s ≠ "" := by
      intro he; rw [he, hempty] at hsplit; simp at hsplit
    simp only [parse_duration, asStr]
    rw [if_neg (by simp [hs]), hsplit]
    simp [durationFromParts, h1, h2]
  · intro s h3 h2
    by_cases hs : s = ""
    · simp [parse_duration, hs]
    · simp only [parse_duration, asStr]
      rw [if_neg (by simp [hs])]
      rcases hL : pySplit ':' s with _ | ⟨a, _ | ⟨b, _ | ⟨c, _ | ⟨d, t⟩⟩⟩⟩ <;>
        simp_all [durationFromParts]
  · intro s p1 p2 p3 hsplit hnone
    have hs : s ≠ "" := by
      intro he; rw [he, hempty] at hsplit; simp at hsplit
    simp only [parse_duration, asStr]
    rw [if_neg (by simp [hs]), hsplit]
    simp only [durationFromParts]
    rcases e1 : pyInt? p1 with _ | a <;> rcases e2 : pyInt? p2 with _ | b <;>
      rcases e3 : pyInt? p3 with _ | c <;> simp_all
  · intro s p1 p2 hsplit hnone
    have hs : s ≠ "" := by
      intro he; rw [he, hempty] at hsplit; simp at hsplit
    simp only [parse_duration, asStr]
    rw [if_neg (by simp [hs]), hsplit]
    simp only [durationFromParts]
    rcases e1 : pyInt? p1 with _ | a <;> rcases e2 : pyInt? p2 with _ | b <;> simp_all

/-- C2 witness: the 3-part case of the duration theorem at "1:23:45". -/
theorem C2_duration_coercion_witness :
    parse_duration (Value.str "1:23:45") = 1 * 3600 + 23 * 60 + 45 :=
  C2_duration_coercion.1 "1:23:45" "1" "23" "45" 1 23 45
    (by decide) (by decide) (by decide) (by decide)

/-- C3: monetary coercion strips `$` and `,` and parses the rest as a
decimal; any parse failure (including empty and absent values) becomes
0.0; negative values are preserved unclamped; concretely "$1,234.56"
gives 1234.56, "" and "abc" give 0.0, "-5.00" gives -5.0. -/
theorem C3_money_coercion :
    (∀ (v : Value) (q : Rat),
        pyFloat? (moneyStrip (asStr v)) = some q → coerceMoney v = Value.rat q)
  ∧ (∀ v : Value,
        pyFloat? (moneyStrip (asStr v)) = none → coerceMoney v = Value.rat 0)
  ∧ coerceMoney (Value.str "$1,234.56") = Value.rat (mkRat 123456 100)
  ∧ coerceMoney (Value.str "") = Value.rat 0
  ∧ coerceMoney (Value.str "abc") = Value.rat 0
  ∧ coerceMoney Value.na = Value.rat 0
  ∧ coerceMoney (Value.str "-5.00") = Value.rat (-5) := by
  refine ⟨?_, ?_, by decide, by decide, by decide, by decide, by decide⟩
  · intro v q h
    simp [coerceMoney, toNumericOrZero, h]
  · intro v h
    simp [coerceMoney, toNumericOrZero, h]

/-- C3 witness: the parse-success case of the monetary theorem. -/
theorem C3_money_coercion_witness :
    coerceMoney (Value.str "$99.10") = Value.rat (mkRat 991 10) :=
  C3_money_coercion.1 (Value.str "$99.10") (mkRat 991 10) (by decide)

/-! ## Column-tracking lemmas for the two normalizers -/

theorem mem_columnsOf_process_viewing_cases {df : DataFrame} {aid c : String}
    (h : c ∈ columnsOf (process_viewing_activity df aid)) :
    c = "duration_sec" ∨
      c ∈ (columnsOf (setColumn df "account_id" (Value.str aid))).map
            (applyMapping viewingMapping) := by
  simp only [process_viewing_activity] at h
  rw [← columnsOf_renameCols]
  split at h
  · rcases mem_columnsOf_setColumnVals_cases h with h1 | h1
    · exact Or.inr h1
    · exact Or.inl h1
  · exact Or.inr h

theorem mem_columnsOf_process_viewing_of_mem {df : DataFrame} {aid c : String}
    (h : c ∈ columnsOf (renameCols viewingMapping (setColumn df "account_id" (Value.str aid)))) :
    c ∈ columnsOf (process_viewing_activity df aid) := by
  simp only [process_viewing_activity]
  split
  · exact mem_columnsOf_setColumnVals_of_mem _ _ h
  · exact h

theorem mem_columnsOf_process_billing_iff {df : DataFrame} {aid c : String} :
    c ∈ columnsOf (process_billing_history df aid) ↔
      c ∈ (columnsOf (setColumn df "account_id" (Value.str aid))).map
            (applyMapping billingMapping) := by
  simp only [process_billing_history]
  rw [columnsOf_convertMoneyColumns, columnsOf_renameCols]

/-! ## Concrete tables used as counterexamples and witnesses -/

/-- A viewing-classified table with an unmapped column `foo`. -/
def dfA : DataFrame := [("title", [Value.str "x"]), ("foo", [Value.str "y"])]

/-- A viewing-classified table whose `Start Time` column differs from the
mapping key `start time` only by case. -/
def dfB : DataFrame := [("Start Time", [Value.str "t"]), ("title", [Value.str "x"])]

/-- A viewing-classified table with a literal `duration_sec` column and
no `duration` column. -/
def dfC : DataFrame := [("title", [Value.str "x"]), ("duration_sec", [Value.str "999"])]

/-- A one-column table whose column is a mapping key. -/
def dfD : DataFrame := [("start time", [Value.str "t"])]

/-- A minimal viewing-classified table. -/
def dfE : DataFrame := [("title", [Value.str "x"])]

/-! ## Value-tracking lemmas for retained columns -/

theorem getCol_map_of_preserving {df : DataFrame} {c0 : String}
    {g : String × List Value → String × List Value}
    (hg1 : ∀ nv, (g nv).1 = nv.1)
    (hg2 : ∀ nv, nv.1 = c0 → (g nv).2 = nv.2) :
    getCol (df.map g) c0 = getCol df c0 := by
  unfold getCol
  rw [List.find?_map]
  have hpred : ((fun nv : String × List Value => nv.1 == c0) ∘ g)
      = (fun nv : String × List Value => nv.1 == c0) :=
    funext fun nv => by simp [Function.comp, hg1 nv]
  rw [hpred]
  cases h : df.find? (fun nv => nv.1 == c0) with
  | none => rfl
  | some nv =>
    have hp : nv.1 = c0 := by
      have hb := List.find?_some h
      simpa using hb
    simp [hg2 nv hp]

theorem getCol_append_ne (df : DataFrame) (name' : String) (vals : List Value)
    {c0 : String} (h : name' ≠ c0) :
    getCol (df ++ [(name', vals)]) c0 = getCol df c0 := by
  unfold getCol
  rw [List.find?_append]
  have hone : List.find? (fun nv => nv.1 == c0) [(name', vals)] = none := by
    simp [h]
  rw [hone, Option.or_none]

theorem getCol_setColumnVals_ne (df : DataFrame) (name' : String) (vals : List Value)
    {c0 : String} (h : name' ≠ c0) :
    getCol (setColumnVals df name' vals) c0 = getCol df c0 := by
  unfold setColumnVals
  split
  · apply getCol_map_of_preserving
    · intro nv
      by_cases hn : nv.1 = name' <;> simp [hn]
    · intro nv hc
      have hne : nv.1 ≠ name' := by rw [hc]; exact fun hh => h hh.symm
      rw [if_neg hne]
  · exact getCol_append_ne df name' vals h

theorem renameCols_find?_unmapped {m : List (String × String)} {c0 : String}
    (hnone : m.lookup c0 = none) (hval : ∀ p ∈ m, p.2 ≠ c0) (df : DataFrame) :
    (renameCols m df).find? (fun nv => nv.1 == c0)
      = (df.find? (fun nv => nv.1 == c0)).map
          (fun nv => (applyMapping m nv.1, nv.2)) := by
  unfold renameCols
  rw [List.find?_map]
  have hpred : ((fun nv : String × List Value => nv.1 == c0) ∘
        (fun nv : String × List Value => (applyMapping m nv.1, nv.2)))
      = (fun nv : String × List Value => nv.1 == c0) := by
    funext nv
    simp only [Function.comp]
    by_cases hb : nv.1 = c0
    · subst hb
      have hmap : applyMapping m nv.1 = nv.1 := by
        unfold applyMapping; rw [hnone]; rfl
      simp [hmap]
    · have hmap : applyMapping m nv.1 ≠ c0 :=
        fun hEq => hb (applyMapping_eq_self_of_not_value hval hEq)
      simp [hmap, hb]
  rw [hpred]

theorem getCol_renameCols_unmapped {m : List (String × String)} {c0 : String}
    (hnone : m.lookup c0 = none) (hval : ∀ p ∈ m, p.2 ≠ c0) (df : DataFrame) :
    getCol (renameCols m df) c0 = getCol df c0 := by
  unfold getCol
  rw [renameCols_find?_unmapped hnone hval]
  cases h : df.find? (fun nv => nv.1 == c0) with
  | none => rfl
  | some nv => rfl

theorem getCol_convertMoneyColumns {df : DataFrame} {c0 : String}
    (hmc : c0 ∉ moneyCols) :
    getCol (convertMoneyColumns df) c0 = getCol df c0 := by
  unfold convertMoneyColumns
  apply getCol_map_of_preserving
  · intro nv
    by_cases hn : nv.1 ∈ moneyCols <;> simp [hn]
  · intro nv hc
    rw [if_neg (hc ▸ hmc)]

theorem getCol_process_viewing_unmapped (df : DataFrame) (aid c0 : String)
    (hnone : viewingMapping.lookup c0 = none)
    (hval : ∀ p ∈ viewingMapping, p.2 ≠ c0)
    (hacc : c0 ≠ "account_id") (hdur : c0 ≠ "duration_sec") :
    getCol (process_viewing_activity df aid) c0 = getCol df c0 := by
  have h1 : getCol (setColumn df "account_id" (Value.str aid)) c0 = getCol df c0 := by
    unfold setColumn
    exact getCol_setColumnVals_ne _ _ _ (Ne.symm hacc)
  have h2 : getCol (renameCols viewingMapping (setColumn df "account_id" (Value.str aid))) c0
      = getCol df c0 := by
    rw [getCol_renameCols_unmapped hnone hval, h1]
  simp only [process_viewing_activity]
  split
  · rw [getCol_setColumnVals_ne _ _ _ (Ne.symm hdur), h2]
  · exact h2

theorem getCol_process_billing_unmapped (df : DataFrame) (aid c0 : String)
    (hnone : billingMapping.lookup c0 = none)
    (hval : ∀ p ∈ billingMapping, p.2 ≠ c0)
    (hacc : c0 ≠ "account_id") :
    getCol (process_billing_history df aid) c0 = getCol df c0 := by
  have hmc : c0 ∉ moneyCols := by
    intro hm
    have hcases : c0 = "gross_sale_amt" ∨ c0 = "tax_amt" ∨ c0 = "item_price_amt" := by
      simpa [moneyCols] using hm
    rcases hcases with rfl | rfl | rfl
    · exact hval ("gross sale amt", "gross_sale_amt") (by decide) rfl
    · exact hval ("tax amt", "tax_amt") (by decide) rfl
    · exact hval ("item price amt", "item_price_amt") (by decide) rfl
  simp only [process_billing_history]
  rw [getCol_convertMoneyColumns hmc, getCol_renameCols_unmapped hnone hval]
  unfold setColumn
  exact getCol_setColumnVals_ne _ _ _ (Ne.symm hacc)

/-- C4 counterexample: `dfA` is classified ViewingActivity, its unmapped
column `foo` survives normalization under its original name, and its
values are retained. -/
theorem C4_counterexample :
    detect_file_type (columnsOf dfA) = ShapeLabel.viewing
  ∧ "foo" ∈ columnsOf (process_viewing_activity dfA "acct")
  ∧ getCol (process_viewing_activity dfA "acct") "foo" = [Value.str "y"] := by
  decide

/-- C4 (amended): every output column of either normalizer is the
injected account_id, the derived duration_sec (viewing only), or the
rename-image of a source column; a source column not in the mapping
table is retained under its original name rather than dropped; and such
a retained column also keeps its values verbatim whenever its name does
not collide with a name the pipeline writes or coerces (account_id,
duration_sec, or a canonical name produced by the mapping — the three
monetary columns are themselves canonical names). -/
theorem C4_unmapped_columns_retained (df : DataFrame) (aid : String) :
    (∀ c ∈ columnsOf (process_viewing_activity df aid),
        c = "account_id" ∨ c = "duration_sec" ∨
          ∃ c0 ∈ columnsOf df, c = applyMapping viewingMapping c0)
  ∧ (∀ c ∈ columnsOf (process_billing_history df aid),
        c = "account_id" ∨ ∃ c0 ∈ columnsOf df, c = applyMapping billingMapping c0)
  ∧ (∀ c0 ∈ columnsOf df, viewingMapping.lookup c0 = none →
        c0 ∈ columnsOf (process_viewing_activity df aid))
  ∧ (∀ c0 ∈ columnsOf df, billingMapping.lookup c0 = none →
        c0 ∈ columnsOf (process_billing_history df aid))
  ∧ (∀ c0 : String, viewingMapping.lookup c0 = none →
        (∀ p ∈ viewingMapping, p.2 ≠ c0) →
        c0 ≠ "account_id" → c0 ≠ "duration_sec" →
        getCol (process_viewing_activity df aid) c0 = getCol df c0)
  ∧ (∀ c0 : String, billingMapping.lookup c0 = none →
        (∀ p ∈ billingMapping, p.2 ≠ c0) →
        c0 ≠ "account_id" →
        getCol (process_billing_history df aid) c0 = getCol df c0) := by
  refine ⟨?_, ?_, ?_, ?_,
    fun c0 hnone hval hacc hdur =>
      getCol_process_viewing_unmapped df aid c0 hnone hval hacc hdur,
    fun c0 hnone hval hacc =>
      getCol_process_billing_unmapped df aid c0 hnone hval hacc⟩
  · intro c hc
    rcases mem_columnsOf_process_viewing_cases hc with h | h
    · exact Or.inr (Or.inl h)
    · rcases List.mem_map.mp h with ⟨c0, hc0, rfl⟩
      rcases mem_columnsOf_setColumnVals_cases hc0 with h1 | h1
      · exact Or.inr (Or.inr ⟨c0, h1, rfl⟩)
      · subst h1
        exact Or.inl (by decide)
  · intro c hc
    rcases List.mem_map.mp (mem_columnsOf_process_billing_iff.mp hc) with ⟨c0, hc0, rfl⟩
    rcases mem_columnsOf_setColumnVals_cases hc0 with h1 | h1
    · exact Or.inr ⟨c0, h1, rfl⟩
    · subst h1
      exact Or.inl (by decide)
  · intro c0 hc0 hnone
    have h1 : c0 ∈ columnsOf (setColumn df "account_id" (Value.str aid)) :=
      mem_columnsOf_setColumnVals_of_mem _ _ hc0
    have h2 : applyMapping viewingMapping c0 = c0 := by
      unfold applyMapping; rw [hnone]; rfl
    apply mem_columnsOf_process_viewing_of_mem
    rw [columnsOf_renameCols]
    exact h2 ▸ List.mem_map_of_mem _ h1
  · intro c0 hc0 hnone
    have h1 : c0 ∈ columnsOf (setColumn df "account_id" (Value.str aid)) :=
      mem_columnsOf_setColumnVals_of_mem _ _ hc0
    have h2 : applyMapping billingMapping c0 = c0 := by
      unfold applyMapping; rw [hnone]; rfl
    rw [mem_columnsOf_process_billing_iff]
    exact h2 ▸ List.mem_map_of_mem _ h1

/-- C4 witness: the values-retained part applied to `dfA`'s unmapped,
collision-free column `foo`. -/
theorem C4_unmapped_columns_retained_witness :
    getCol (process_viewing_activity dfA "acct") "foo" = getCol dfA "foo" :=
  (C4_unmapped_columns_retained dfA "acct").2.2.2.2.1 "foo"
    (by decide) (by decide) (by decide) (by decide)

/-- C5 counterexample: `dfB` is classified ViewingActivity, yet its
column `Start Time` (a case variant of the mapping key) is NOT renamed
to `start_time`; it survives under its original spelling. -/
theorem C5_counterexample :
    detect_file_type (columnsOf dfB) = ShapeLabel.viewing
  ∧ "Start Time" ∈ columnsOf (process_viewing_activity dfB "acct")
  ∧ "start_time" ∉ columnsOf (process_viewing_activity dfB "acct") := by
  decide

/-- C5 (amended): the renaming matches source column names against the
mapping keys exactly (case-sensitively): a column equal to a key
verbatim is renamed to the canonical name, and a column not equal to
any key (including case variants) is kept under its original name. -/
theorem C5_rename_exact_match (df : DataFrame) (aid : String) (n c' : String) :
    (n ∈ columnsOf df → viewingMapping.lookup n = some c' →
        c' ∈ columnsOf (process_viewing_activity df aid))
  ∧ (n ∈ columnsOf df → billingMapping.lookup n = some c' →
        c' ∈ columnsOf (process_billing_history df aid))
  ∧ (n ∈ columnsOf df → viewingMapping.lookup n = none →
        n ∈ columnsOf (process_viewing_activity df aid))
  ∧ (n ∈ columnsOf df → billingMapping.lookup n = none →
        n ∈ columnsOf (process_billing_history df aid)) := by
  refine ⟨?_, ?_, ?_, ?_⟩
  · intro hmem hsome
    have h1 : n ∈ columnsOf (setColumn df "account_id" (Value.str aid)) :=
      mem_columnsOf_setColumnVals_of_mem _ _ hmem
    have h2 : applyMapping viewingMapping n = c' := by
      unfold applyMapping; rw [hsome]; rfl
    apply mem_columnsOf_process_viewing_of_mem
    rw [columnsOf_renameCols]
    exact h2 ▸ List.mem_map_of_mem _ h1
  · intro hmem hsome
    have h1 : n ∈ columnsOf (setColumn df "account_id" (Value.str aid)) :=
      mem_columnsOf_setColumnVals_of_mem _ _ hmem
    have h2 : applyMapping billingMapping n = c' := by
      unfold applyMapping; rw [hsome]; rfl
    rw [mem_columnsOf_process_billing_iff]
    exact h2 ▸ List.mem_map_of_mem _ h1
  · intro hmem hnone
    have h1 : n ∈ columnsOf (setColumn df "account_id" (Value.str aid)) :=
      mem_columnsOf_setColumnVals_of_mem _ _ hmem
    have h2 : applyMapping viewingMapping n = n := by
      unfold applyMapping; rw [hnone]; rfl
    apply mem_columnsOf_process_viewing_of_mem
    rw [columnsOf_renameCols]
    exact h2 ▸ List.mem_map_of_mem _ h1
  · intro hmem hnone
    have h1 : n ∈ columnsOf (setColumn df "account_id" (Value.str aid)) :=
      mem_columnsOf_setColumnVals_of_mem _ _ hmem
    have h2 : applyMapping billingMapping n = n := by
      unfold applyMapping; rw [hnone]; rfl
    rw [mem_columnsOf_process_billing_iff]
    exact h2 ▸ List.mem_map_of_mem _ h1

/-- C5 witness: an exactly-matching key is renamed. -/
theorem C5_rename_exact_match_witness :
    "start_time" ∈ columnsOf (process_viewing_activity dfD "acct") :=
  (C5_rename_exact_match dfD "acct" "start time" "start_time").1 (by decide) (by decide)

/-- C6 counterexample: a duration text whose middle part parses as a
negative integer produces a negative duration_sec: the coercion performs
the signed sum with no clamping. -/
theorem C6_counterexample :
    parse_duration (Value.str "0:-1:0") = -60
  ∧ parse_duration (Value.str "0:-1:0") < 0 := by
  decide

theorem durationFromParts_nonneg (L : List String)
    (h : ∀ p ∈ L, 0 ≤ (pyInt? p).getD 0) : 0 ≤ durationFromParts L := by
  rcases L with _ | ⟨p1, _ | ⟨p2, _ | ⟨p3, _ | ⟨p4, t⟩⟩⟩⟩
  · simp [durationFromParts]
  · simp [durationFromParts]
  · simp only [durationFromParts]
    have h1 := h p1 (by simp)
    have h2 := h p2 (by simp)
    rcases e1 : pyInt? p1 with _ | a <;> rcases e2 : pyInt? p2 with _ | b <;>
      simp_all <;> omega
  · simp only [durationFromParts]
    have h1 := h p1 (by simp)
    have h2 := h p2 (by simp)
    have h3 := h p3 (by simp)
    rcases e1 : pyInt? p1 with _ | a <;> rcases e2 : pyInt? p2 with _ | b <;>
      rcases e3 : pyInt? p3 with _ | c <;> simp_all <;> omega
  · simp [durationFromParts]

/-- C6 (amended): the duration coercion result is a non-negative integer
(0 by default when unparseable) for every missing value and for every
text all of whose successfully parsed ':'-parts are non-negative;
texts with negative integer parts can produce negative results
(see the counterexample). -/
theorem C6_duration_nonneg (v : Value)
    (hparts : ∀ p ∈ pySplit ':' (asStr v), 0 ≤ (pyInt? p).getD 0) :
    0 ≤ parse_duration v := by
  unfold parse_duration
  split
  · exact le_refl 0
  · exact durationFromParts_nonneg _ hparts

/-- C6 witness: the non-negativity theorem at "1:23:45". -/
theorem C6_duration_nonneg_witness :
    0 ≤ parse_duration (Value.str "1:23:45") :=
  C6_duration_nonneg (Value.str "1:23:45") (by decide)

/-- C10 counterexample: `dfC` is classified ViewingActivity and has no
`duration` column after renaming, yet the normalizer output does contain
a `duration_sec` column — the one already present in the source table,
which is retained rather than dropped. -/
theorem C10_counterexample :
    detect_file_type (columnsOf dfC) = ShapeLabel.viewing
  ∧ "duration" ∉ columnsOf (renameCols viewingMapping (setColumn dfC "account_id" (Value.str "acct")))
  ∧ "duration_sec" ∈ columnsOf (process_viewing_activity dfC "acct") := by
  decide

/-- C10 (amended): for a ViewingActivity-classified table with no
`duration` column after renaming, the normalizer adds no derived
duration_sec column — its output is exactly the renamed table with
account_id injected — so the output can contain a duration_sec column
only if the source table already had one. -/
theorem C10_no_default_duration_sec (df : DataFrame) (aid : String)
    (hdet : detect_file_type (columnsOf df) = ShapeLabel.viewing)
    (hnd : "duration" ∉
      columnsOf (renameCols viewingMapping (setColumn df "account_id" (Value.str aid)))) :
    process_viewing_activity df aid
      = renameCols viewingMapping (setColumn df "account_id" (Value.str aid))
  ∧ ("duration_sec" ∈ columnsOf (process_viewing_activity df aid) →
      "duration_sec" ∈ columnsOf df) := by
  have heq : process_viewing_activity df aid
      = renameCols viewingMapping (setColumn df "account_id" (Value.str aid)) := by
    simp only [process_viewing_activity]
    rw [if_neg hnd]
  refine ⟨heq, ?_⟩
  intro h
  rw [heq, columnsOf_renameCols] at h
  rcases List.mem_map.mp h with ⟨c0, hc0, hmap⟩
  have hv : ∀ p ∈ viewingMapping, p.2 ≠ "duration_sec" := by decide
  have hc0eq : c0 = "duration_sec" := applyMapping_eq_self_of_not_value hv hmap
  subst hc0eq
  rcases mem_columnsOf_setColumnVals_cases hc0 with h1 | h1
  · exact h1
  · exact absurd h1 (by decide)

/-- C10 witness: the amended theorem at a duration-free table. -/
theorem C10_no_default_duration_sec_witness :
    process_viewing_activity dfE "acct"
      = renameCols viewingMapping (setColumn dfE "account_id" (Value.str "acct")) :=
  (C10_no_default_duration_sec dfE "acct" (by decide) (by decide)).1

/-! ## Digest-shape lemmas -/

theorem wordHex8_length (w : Nat) : (wordHex8 w).length = 8 := by
  simp [wordHex8]

theorem sha256HexChars_length (m : List Nat) : (sha256HexChars m).length = 64 := by
  simp [sha256HexChars, wordHex8_length]

theorem hexChar_mem_hex : ∀ n, n < 16 →
    (hexChar n).isDigit ∨ ('a' ≤ hexChar n ∧ hexChar n ≤ 'f') := by
  decide

theorem hex_of_mem_wordHex8 {c : Char} {w : Nat} (h : c ∈ wordHex8 w) :
    c.isDigit ∨ ('a' ≤ c ∧ c ≤ 'f') := by
  simp only [wordHex8, List.mem_map, List.mem_range] at h
  rcases h with ⟨i, hi, rfl⟩
  exact hexChar_mem_hex _ (Nat.mod_lt _ (by norm_num))

theorem hex_of_mem_sha256HexChars {c : Char} {m : List Nat}
    (h : c ∈ sha256HexChars m) : c.isDigit ∨ ('a' ≤ c ∧ c ≤ 'f') := by
  simp only [sha256HexChars, List.mem_append] at h
  rcases h with (((((((h | h) | h) | h) | h) | h) | h) | h) <;>
    exact hex_of_mem_wordHex8 h

/-- Validation of the SHA-256 embedding against the FIPS 180-4 test
vector for the message "abc". -/
theorem sha256Hex_test_vector :
    sha256Hex (utf8Bytes "abc")
      = "ba7816bf8f01cfea414140de5dae2223b00361a396177a9cb410ff61f20015ad" := by
  decide

/-- C7: the account identifier is the first 16 hex characters of the
SHA-256 digest of the secret's UTF-8 bytes; it is deterministic, always
has length exactly 16, and every character is a lower-case hex digit
(sixteen characters drawn from 0-9 and a-f). -/
theorem C7_hash_wallet_address (s : String) :
    hash_wallet_address s = String.mk ((sha256HexChars (utf8Bytes s)).take 16)
  ∧ (hash_wallet_address s).length = 16
  ∧ ∀ c ∈ (hash_wallet_address s).data, c.isDigit ∨ ('a' ≤ c ∧ c ≤ 'f') := by
  refine ⟨rfl, ?_, ?_⟩
  · show (String.mk ((sha256HexChars (utf8Bytes s)).take 16)).length = 16
    simp [String.length, List.length_take, sha256HexChars_length]
  · intro c hc
    have hmem : c ∈ sha256HexChars (utf8Bytes s) :=
      List.take_subset 16 _ (by simpa using hc)
    exact hex_of_mem_sha256HexChars hmem

/-- C7 witness: the digest-shape theorem at a concrete secret. -/
theorem C7_hash_wallet_address_witness :
    (hash_wallet_address "abc").length = 16 :=
  (C7_hash_wallet_address "abc").2.1

/-- C8: the shape classifier is a pure function of the set of
lower-cased, trimmed column names: any two tables with the same
normalized column-name set classify identically, regardless of order,
duplication, case or surrounding whitespace. -/
theorem C8_classifier_pure_function (cols1 cols2 : List String)
    (h : normColumns cols1 = normColumns cols2) :
    detect_file_type cols1 = detect_file_type cols2
  ∧ detect_file_type ["Start Time", "Duration"]
      = detect_file_type ["start time ", "DURATION"] := by
  constructor
  · unfold detect_file_type
    rw [h]
  · decide

/-- C8 witness: the purity theorem at the spec's concrete pair. -/
theorem C8_classifier_pure_function_witness :
    detect_file_type ["Start Time", "Duration"]
      = detect_file_type ["start time ", "DURATION"] :=
  (C8_classifier_pure_function ["Start Time", "Duration"]
    ["start time ", "DURATION"] (by decide)).1

/-! ## Account-id propagation lemmas -/

/-- Every column named `account_id` holds only the given identifier. -/
def allAccountId (df : DataFrame) (aid : String) : Prop :=
  ∀ nv ∈ df, nv.1 = "account_id" → ∀ v ∈ nv.2, v = Value.str aid

theorem allAccountId_setColumn (df : DataFrame) (aid : String) :
    allAccountId (setColumn df "account_id" (Value.str aid)) aid := by
  intro nv hnv hname v hv
  unfold setColumn setColumnVals at hnv
  split at hnv
  · rcases List.mem_map.mp hnv with ⟨nv0, hnv0, heq⟩
    by_cases h0 : nv0.1 = "account_id"
    · rw [if_pos h0] at heq
      subst heq
      exact List.eq_of_mem_replicate hv
    · rw [if_neg h0] at heq
      subst heq
      exact absurd hname h0
  · rcases List.mem_append.mp hnv with h1 | h1
    · rename_i hany
      exact absurd (List.any_eq_true.mpr ⟨nv, h1, by simp [hname]⟩) hany
    · have heq : nv = ("account_id", List.replicate (nRows df) (Value.str aid)) :=
        List.mem_singleton.mp h1
      subst heq
      exact List.eq_of_mem_replicate hv

theorem allAccountId_renameCols {df : DataFrame} {aid : String}
    (m : List (String × String)) (hm : ∀ p ∈ m, p.2 ≠ "account_id")
    (h : allAccountId df aid) : allAccountId (renameCols m df) aid := by
  intro nv hnv hname v hv
  rcases List.mem_map.mp hnv with ⟨nv0, hnv0, rfl⟩
  have h0 : nv0.1 = "account_id" := applyMapping_eq_self_of_not_value hm hname
  exact h nv0 hnv0 h0 v hv

theorem allAccountId_setColumnVals {df : DataFrame} {aid : String}
    (n : String) (vals : List Value) (hn : n ≠ "account_id")
    (h : allAccountId df aid) : allAccountId (setColumnVals df n vals) aid := by
  intro nv hnv hname v hv
  unfold setColumnVals at hnv
  split at hnv
  · rcases List.mem_map.mp hnv with ⟨nv0, hnv0, heq⟩
    by_cases h0 : nv0.1 = n
    · rw [if_pos h0] at heq
      subst heq
      exact absurd hname hn
    · rw [if_neg h0] at heq
      subst heq
      exact h nv0 hnv0 hname v hv
  · rcases List.mem_append.mp hnv with h1 | h1
    · exact h nv h1 hname v hv
    · have heq : nv = (n, vals) := List.mem_singleton.mp h1
      subst heq
      exact absurd hname hn

theorem allAccountId_convertMoneyColumns {df : DataFrame} {aid : String}
    (h : allAccountId df aid) : allAccountId (convertMoneyColumns df) aid := by
  intro nv hnv hname v hv
  rcases List.mem_map.mp hnv with ⟨nv0, hnv0, heq⟩
  by_cases h0 : nv0.1 ∈ moneyCols
  · rw [if_pos h0] at heq
    subst heq
    rw [show nv0.1 = "account_id" from hname] at h0
    exact absurd h0 (by decide)
  · rw [if_neg h0] at heq
    subst heq
    exact h nv0 hnv0 hname v hv

theorem process_viewing_allAccountId (df : DataFrame) (aid : String) :
    allAccountId (process_viewing_activity df aid) aid := by
  simp only [process_viewing_activity]
  split
  · exact allAccountId_setColumnVals _ _ (by decide)
      (allAccountId_renameCols _ (by decide) (allAccountId_setColumn df aid))
  · exact allAccountId_renameCols _ (by decide) (allAccountId_setColumn df aid)

theorem process_billing_allAccountId (df : DataFrame) (aid : String) :
    allAccountId (process_billing_history df aid) aid := by
  unfold process_billing_history
  exact allAccountId_convertMoneyColumns
    (allAccountId_renameCols _ (by decide) (allAccountId_setColumn df aid))

theorem process_viewing_mem_account (df : DataFrame) (aid : String) :
    "account_id" ∈ columnsOf (process_viewing_activity df aid) := by
  apply mem_columnsOf_process_viewing_of_mem
  rw [columnsOf_renameCols]
  have h1 : "account_id" ∈ columnsOf (setColumn df "account_id" (Value.str aid)) :=
    mem_columnsOf_setColumnVals_self _ _ _
  have h2 : applyMapping viewingMapping "account_id" = "account_id" := by decide
  exact h2 ▸ List.mem_map_of_mem _ h1

theorem process_billing_mem_account (df : DataFrame) (aid : String) :
    "account_id" ∈ columnsOf (process_billing_history df aid) := by
  rw [mem_columnsOf_process_billing_iff]
  have h1 : "account_id" ∈ columnsOf (setColumn df "account_id" (Value.str aid)) :=
    mem_columnsOf_setColumnVals_self _ _ _
  have h2 : applyMapping billingMapping "account_id" = "account_id" := by decide
  exact h2 ▸ List.mem_map_of_mem _ h1

/-- C9: the account identifier is derived once (from the wallet secret,
with the "unknown" fallback) before any file is processed, and every
record batch the run appends — viewing or billing — carries a non-null
account_id column all of whose values equal that single identifier. -/
theorem C9_single_account_id (wopt : Option String) (files : List (String × DataFrame))
    (tbl : String) (out : DataFrame)
    (h : (tbl, out) ∈ transform wopt files) :
    "account_id" ∈ columnsOf out
  ∧ ∀ nv ∈ out, nv.1 = "account_id" →
      ∀ v ∈ nv.2, v = Value.str (hash_wallet_address (resolveWallet wopt)) := by
  simp only [transform] at h
  rcases List.mem_filterMap.mp h with ⟨⟨name, df⟩, hmem, hf⟩
  dsimp only at hf
  by_cases hcsv : hasCsvExt name
  · rw [if_pos hcsv] at hf
    rcases hdet : detect_file_type (columnsOf df) with _ | _ | _ <;> rw [hdet] at hf
    · simp only [Option.some.injEq, Prod.mk.injEq] at hf
      rcases hf with ⟨rfl, rfl⟩
      exact ⟨process_viewing_mem_account df _, process_viewing_allAccountId df _⟩
    · simp only [Option.some.injEq, Prod.mk.injEq] at hf
      rcases hf with ⟨rfl, rfl⟩
      exact ⟨process_billing_mem_account df _, process_billing_allAccountId df _⟩
    · simp at hf
  · rw [if_neg hcsv] at hf
    simp at hf

/-- C9 witness: the theorem applied to a one-file run. -/
theorem C9_single_account_id_witness :
    "account_id" ∈ columnsOf (process_viewing_activity dfE
      (hash_wallet_address (resolveWallet (some "w")))) :=
  (C9_single_account_id (some "w") [("a.csv", dfE)] "viewing_activity"
    (process_viewing_activity dfE (hash_wallet_address (resolveWallet (some "w"))))
    (List.mem_singleton.mpr rfl)).1

end Refiner
